import Mathlib

/-!
Verification development for the markdown SEO / readability analyzer.

The analyzer consists of eight SEO check functions, an aggregator
(`analyzeSEO`), a syllable estimator (two variants appear in the sources:
`countSyllables` and `countSyllablesV2`), and a readability analyzer
(`analyzeReadability`, with the second source variant `analyzeReadabilityV2`).
Text is modelled as `List Char`; JavaScript regular-expression operations used
by the code (`split(/\s+/)`, `split(/[.!?]+/)`, `split('\n\n')`,
`split(/\n\n+/)`, the link / image / heading / title patterns) are embedded as
executable scanners with the exact greedy, leftmost, backtracking semantics of
the originals.  JavaScript floating-point special values that actually arise
(`NaN`, `Infinity` from division by a zero count) are modelled by `JSNum`.
-/

/-- Whitespace class of JavaScript `\s` restricted to the ASCII range. -/
def isWS (c : Char) : Bool :=
  c = ' ' || c = '\t' || c = '\n' || c = '\r' || c = '\x0b' || c = '\x0c'

/-- Line terminators recognised by JavaScript `.`, `^`, `$` in multiline mode
(ASCII range). -/
def isLineTerm (c : Char) : Bool :=
  c = '\n' || c = '\r'

/-- Sentence-terminal punctuation of the `[.!?]` class. -/
def isSentEnd (c : Char) : Bool :=
  c = '.' || c = '!' || c = '?'

/-- The five-vowel class `[aeiou]` of `countSyllables`. -/
def isVowel5 (c : Char) : Bool :=
  c = 'a' || c = 'e' || c = 'i' || c = 'o' || c = 'u'

/-- The vowel class `[aeiouy]` shared by both syllable estimators. -/
def isVowelY (c : Char) : Bool :=
  isVowel5 c || c = 'y'

/-- Prepend a character to the first segment of a split result. -/
def consHead (c : Char) : List (List Char) → List (List Char)
  | [] => [[c]]
  | s :: ss => (c :: s) :: ss

/-- JavaScript `String.prototype.split` on a regex matching maximal nonempty
runs of characters satisfying `p` (e.g. `split(/\s+/)`, `split(/[.!?]+/)`).
Empty segments are produced at the ends exactly as in JavaScript:
`" a".split(/\s+/) = ["", "a"]`, `"".split(/\s+/) = [""]`. -/
def splitRuns (p : Char → Bool) : List Char → List (List Char)
  | [] => [[]]
  | c :: rest =>
    if p c then
      if (rest.head?.elim false p) then splitRuns p rest
      else [] :: splitRuns p rest
    else consHead c (splitRuns p rest)

/-- JavaScript `String.prototype.split('\n')` (literal single newline). -/
def splitNl : List Char → List (List Char)
  | [] => [[]]
  | '\n' :: rest => [] :: splitNl rest
  | c :: rest => consHead c (splitNl rest)

/-- JavaScript `String.prototype.split('\n\n')` (literal two-character
separator, leftmost non-overlapping occurrences). -/
def jsSplitNN : List Char → List (List Char)
  | [] => [[]]
  | '\n' :: '\n' :: rest => [] :: jsSplitNN rest
  | c :: rest => consHead c (jsSplitNN rest)

/-- Worker for `splitParas`; the flag records whether the previous character
belonged to a separator run of two-or-more newlines. -/
def splitParasAux : List Char → Bool → List (List Char)
  | [], _ => [[]]
  | c :: rest, inRun =>
    if c = '\n' then
      if inRun then splitParasAux rest true
      else if rest.head?.elim false (· = '\n') then [] :: splitParasAux rest true
      else consHead '\n' (splitParasAux rest false)
    else consHead c (splitParasAux rest false)

/-- JavaScript `split(/\n\n+/)`: separators are maximal runs of at least two
newline characters; a single newline stays inside its paragraph. -/
def splitParas (cs : List Char) : List (List Char) :=
  splitParasAux cs false

/-- JavaScript `String.prototype.trim` (whitespace from both ends). -/
def jsTrim (cs : List Char) : List Char :=
  ((cs.dropWhile isWS).reverse.dropWhile isWS).reverse

/-- Worker for `collapseV`; the flag records whether we are inside a vowel run
whose replacement character has already been emitted. -/
def collapseVAux : List Char → Bool → List Char
  | [], _ => []
  | c :: rest, inRun =>
    if isVowel5 c then
      if inRun then collapseVAux rest true
      else if rest.head?.elim false isVowel5 then 'a' :: collapseVAux rest true
      else c :: collapseVAux rest false
    else c :: collapseVAux rest false

/-- JavaScript `replace(/[aeiou]{2,}/g, 'a')`: each maximal run of two or more
characters from `[aeiou]` becomes a single `'a'`. -/
def collapseV (cs : List Char) : List Char :=
  collapseVAux cs false

/-- Number of maximal runs of characters satisfying `p`; the flag records
whether the previous character satisfied `p`. -/
def countRunsAux (p : Char → Bool) : List Char → Bool → Nat
  | [], _ => 0
  | c :: rest, prev =>
    (if p c && !prev then 1 else 0) + countRunsAux p rest (p c)

/-- Number of maximal runs of characters satisfying `p` in a list. -/
def countRuns (p : Char → Bool) (cs : List Char) : Nat :=
  countRunsAux p cs false

/-- Syllable estimator of `src/src/App.tsx` (`countSyllables`): lower-case,
strip non-letters, drop one trailing `'e'` (the only match of `/e\b/g` in an
all-letter word), collapse `[aeiou]` runs of length at least two into a single
`'a'`, and count the remaining `[aeiouy]` characters. -/
def countSyllablesL (cs : List Char) : Nat :=
  let w := (cs.map Char.toLower).filter fun c => 'a' ≤ c && c ≤ 'z'
  let w2 := if w.getLast? = some 'e' then w.dropLast else w
  ((collapseV w2).filter isVowelY).length

/-- String wrapper for `countSyllablesL`. -/
def countSyllables (s : String) : Nat :=
  countSyllablesL s.data

/-- Syllable estimator of `src/unnamed/part_000` (`countSyllables` there):
lower-case, strip non-letters, and count maximal `[aeiouy]` runs (the effect of
`replace(/[^aeiouy]+/g, ' ').trim().split(' ').filter(Boolean).length`). -/
def countSyllablesV2L (cs : List Char) : Nat :=
  countRuns isVowelY ((cs.map Char.toLower).filter fun c => 'a' ≤ c && c ≤ 'z')

/-- String wrapper for `countSyllablesV2L`. -/
def countSyllablesV2 (s : String) : Nat :=
  countSyllablesV2L s.data

/-- JavaScript `String.prototype.includes`: does `sub` occur as a contiguous
substring? -/
def hasSub (sub : List Char) : List Char → Bool
  | [] => sub.isEmpty
  | c :: rest => sub.isPrefixOf (c :: rest) || hasSub sub rest

/-- Attempt to complete a markdown-link match of `/\[([^\]]+)\]\(([^)]+)\)/`
whose leading `'['` has just been consumed; `rest` is the text after it.
Returns the match minus its leading `'['` and the number of characters of
`rest` consumed.  The pattern is deterministic: the greedy `[^\]]+` must stop
at the first `']'` and `[^)]+` at the first `')'`, and no backtracking can
rescue a failure. -/
def tryLink (rest : List Char) : Option (List Char × Nat) :=
  let txt := rest.takeWhile (· ≠ ']')
  if txt.length = 0 then none else
  match rest.drop txt.length with
  | ']' :: '(' :: r2 =>
    let url := r2.takeWhile (· ≠ ')')
    if url.length = 0 then none else
    match r2.drop url.length with
    | ')' :: _ => some (txt ++ ']' :: '(' :: (url ++ [')']), txt.length + 2 + url.length + 1)
    | _ => none
  | _ => none

/-- Global scan of `/\[([^\]]+)\]\(([^)]+)\)/g`: the `Nat` argument is the
number of characters still to skip past the previous match. -/
def findLinksAux : List Char → Nat → List (List Char)
  | [], _ => []
  | _ :: rest, n + 1 => findLinksAux rest n
  | c :: rest, 0 =>
    if c = '[' then
      match tryLink rest with
      | some (m, k) => ('[' :: m) :: findLinksAux rest k
      | none => findLinksAux rest 0
    else findLinksAux rest 0

/-- All matches of the markdown link pattern in document order
(JavaScript `text.match(/\[([^\]]+)\]\(([^)]+)\)/g) || []`). -/
def findLinks (cs : List Char) : List (List Char) :=
  findLinksAux cs 0

/-- Attempt to complete an image match of `/!\[([^\]]*)\]\(([^)]+)\)/` whose
leading `'!'` has just been consumed; alt text may be empty (`*`), the url must
be nonempty. -/
def tryImage (rest : List Char) : Option (List Char × Nat) :=
  match rest with
  | '[' :: r1 =>
    let alt := r1.takeWhile (· ≠ ']')
    (match r1.drop alt.length with
     | ']' :: '(' :: r2 =>
       let url := r2.takeWhile (· ≠ ')')
       if url.length = 0 then none else
       (match r2.drop url.length with
        | ')' :: _ =>
          some ('[' :: (alt ++ ']' :: '(' :: (url ++ [')'])), 1 + alt.length + 2 + url.length + 1)
        | _ => none)
     | _ => none)
  | _ => none

/-- Global scan of the image pattern, skip-counter style as `findLinksAux`. -/
def findImagesAux : List Char → Nat → List (List Char)
  | [], _ => []
  | _ :: rest, n + 1 => findImagesAux rest n
  | c :: rest, 0 =>
    if c = '!' then
      match tryImage rest with
      | some (m, k) => ('!' :: m) :: findImagesAux rest k
      | none => findImagesAux rest 0
    else findImagesAux rest 0

/-- All matches of `/!\[([^\]]*)\]\(([^)]+)\)/g` in document order. -/
def findImages (cs : List Char) : List (List Char) :=
  findImagesAux cs 0

/-- Attempt a match of `/^#{1,6}\s+.+$/m` at an anchored position whose first
character `c0` has been consumed; `rest` is the remaining text.  Returns the
matched substring and the number of characters of `rest` consumed.  The run of
`'#'` must have length 1–6 (greedy backtracking cannot shorten it, because the
character after a shorter run would be `'#'`, which `\s+` rejects).  `\s+` is
greedy and may cross newlines; if the string ends inside the whitespace run,
the engine backtracks until `.+` can consume at least one non-line-terminator
character. -/
def tryHeading (c0 : Char) (rest : List Char) : Option (List Char × Nat) :=
  if c0 = '#' then
    let hs := rest.takeWhile (· = '#')
    if hs.length + 1 > 6 then none else
    let afterH := rest.drop hs.length
    let wsRun := afterH.takeWhile isWS
    let w := wsRun.length
    if w = 0 then none else
    match afterH.drop w with
    | [] =>
      let t1 := wsRun.drop 1
      let k := (t1.reverse.takeWhile isLineTerm).length
      if k < t1.length then
        some ('#' :: hs ++ wsRun.take (w - k), hs.length + (w - k))
      else none
    | bc :: brest =>
      let body := (bc :: brest).takeWhile fun c => !isLineTerm c
      some ('#' :: hs ++ wsRun ++ body, hs.length + w + body.length)
  else none

/-- Global multiline scan of `/^#{1,6}\s+.+$/gm`.  The `Nat` is the skip
counter past the previous match; the `Bool` records whether the current
position is anchored (start of input or just after a line terminator). -/
def headingScanAux : List Char → Nat → Bool → List (List Char)
  | [], _, _ => []
  | c :: rest, n + 1, _ => headingScanAux rest n (isLineTerm c)
  | c :: rest, 0, anchored =>
    if anchored then
      match tryHeading c rest with
      | some (m, k) => m :: headingScanAux rest k (isLineTerm c)
      | none => headingScanAux rest 0 (isLineTerm c)
    else headingScanAux rest 0 (isLineTerm c)

/-- All matches of `/^#{1,6}\s+.+$/gm` in document order
(JavaScript `text.match(...) || []`). -/
def headingMatches (cs : List Char) : List (List Char) :=
  headingScanAux cs 0 true

/-- Attempt a match of the title pattern `/^#\s+(.+)$/m` at an anchored
position (first character `c0` consumed); returns the length of the capture
group `(.+)`.  A line `## x` does not match: after the single `'#'`, `\s+`
would have to match `'#'`.  The backtracking rule at end-of-string mirrors
`tryHeading`; there the capture is the single given-back whitespace
character. -/
def tryTitle (c0 : Char) (rest : List Char) : Option Nat :=
  if c0 = '#' then
    let wsRun := rest.takeWhile isWS
    let w := wsRun.length
    if w = 0 then none else
    match rest.drop w with
    | [] =>
      let t1 := wsRun.drop 1
      let k := (t1.reverse.takeWhile isLineTerm).length
      if k < t1.length then some 1 else none
    | bc :: brest =>
      some (((bc :: brest).takeWhile fun c => !isLineTerm c).length)
  else none

/-- First match of `/^#\s+(.+)$/m`: scan anchored positions left to right and
return the capture length of the first success. -/
def findTitleAux : List Char → Bool → Option Nat
  | [], _ => none
  | c :: rest, anchored =>
    if anchored then
      match tryTitle c rest with
      | some n => some n
      | none => findTitleAux rest (isLineTerm c)
    else findTitleAux rest (isLineTerm c)

/-- Capture length of the first title match in a document, if any. -/
def findTitle (cs : List Char) : Option Nat :=
  findTitleAux cs true

/-- JavaScript `replace(/^#.*\n/, '')`: if the text starts with `'#'` and its
first line terminator is a literal `'\n'`, remove everything up to and
including that newline; otherwise leave the text unchanged (`.` cannot cross a
line terminator, so the matched `'\n'` can only be the first one). -/
def stripLeadHeading (cs : List Char) : List Char :=
  match cs with
  | '#' :: _ =>
    let pre := cs.takeWhile fun c => !isLineTerm c
    (match cs.drop pre.length with
     | '\n' :: rest => rest
     | _ => cs)
  | _ => cs

/-- Result of one SEO check: a unit score and suggestion strings. -/
structure SEOCheckResult where
  score : ℚ
  suggestions : List String
deriving DecidableEq

/-- Suggestion text of the keyword-density check, no-keywords branch. -/
def msgNoKw : String :=
  "No clear keywords found. Consider using relevant keywords multiple times."

/-- Suggestion text of the keyword-density check, few-keywords branch. -/
def msgFewKw : String :=
  "Limited keyword usage. Try incorporating more relevant keywords."

/-- Suggestion text of the title check, missing-title branch. -/
def msgNoTitle : String :=
  "No main title (H1) found. Add a clear title at the beginning."

/-- Suggestion text of the title check, short-title branch. -/
def msgShortTitle : String :=
  "Title is too short. Aim for 50-60 characters for better SEO."

/-- Suggestion text of the title check, long-title branch. -/
def msgLongTitle : String :=
  "Title is too long. Keep it under 60 characters for better visibility in search results."

/-- Suggestion text of the meta-description check, empty branch. -/
def msgAddIntro : String :=
  "Add a clear introductory paragraph that summarizes your content."

/-- Suggestion text of the meta-description check, short branch. -/
def msgShortIntro : String :=
  "Introduction is too short. Aim for 150-160 characters for better search visibility."

/-- Suggestion text of the meta-description check, long branch. -/
def msgLongIntro : String :=
  "Introduction is too long. Keep it under 160 characters for optimal display in search results."

/-- Suggestion text of the headings check, no-headings branch. -/
def msgNoHeadings : String :=
  "No headings found. Use headings to structure your content."

/-- Suggestion text of the headings check, missing-H1 branch. -/
def msgAddH1 : String :=
  "Add a main heading (H1) to your content."

/-- Suggestion text of the headings check, multiple-H1 branch. -/
def msgMultH1 : String :=
  "Multiple H1 headings found. Use only one main heading."

/-- Suggestion text of the headings check, no-subheadings branch. -/
def msgAddSub : String :=
  "Add subheadings (H2, H3) to better structure your content."

/-- Suggestion text of the links check, zero-links branch. -/
def msgNoLinks : String :=
  "No links found. Add relevant internal or external links to enhance content value."

/-- Suggestion text of the links check, empty-anchor branch. -/
def msgEmptyAnchor : String :=
  "Some links have empty anchor text. Add descriptive text to all links."

/-- Suggestion text of the image-alt check. -/
def msgAlt : String :=
  "Some images are missing alt text. Add descriptive alt text to all images."

/-- Suggestion text of the content-length check, very-short branch. -/
def msgShortContent : String :=
  "Content is too short. Aim for at least 300 words for better SEO."

/-- Suggestion text of the content-length check, medium branch. -/
def msgMedContent : String :=
  "Consider adding more content. Long-form content (1000+ words) typically ranks better."

/-- Suggestion text of the paragraph-length check. -/
def msgLongPara : String :=
  "Some paragraphs are too long. Break them into smaller chunks for better readability."

/-- SEO check `calculateKeywordDensity`: lower-case, split on whitespace,
count distinct words of length greater than 3 occurring more than once (the
code keeps at most the top five, so the branch thresholds see
`min 5` of that count). -/
def calculateKeywordDensityL (cs : List Char) : SEOCheckResult :=
  let words := splitRuns isWS (cs.map Char.toLower)
  let qual := words.filter fun w => 3 < w.length
  let kwN := min 5 ((qual.dedup.filter fun w => 1 < qual.count w).length)
  if kwN = 0 then ⟨3/10, [msgNoKw]⟩
  else if kwN < 3 then ⟨3/5, [msgFewKw]⟩
  else ⟨1, []⟩

/-- String wrapper for `calculateKeywordDensityL`. -/
def calculateKeywordDensity (t : String) : SEOCheckResult :=
  calculateKeywordDensityL t.data

/-- SEO check `checkTitleLength`: branch on the capture length of the first
`/^#\s+(.+)$/m` match. -/
def checkTitleLengthL (cs : List Char) : SEOCheckResult :=
  match findTitle cs with
  | none => ⟨0, [msgNoTitle]⟩
  | some n =>
    if n < 30 then ⟨1/2, [msgShortTitle]⟩
    else if 60 < n then ⟨7/10, [msgLongTitle]⟩
    else ⟨1, []⟩

/-- String wrapper for `checkTitleLengthL`. -/
def checkTitleLength (t : String) : SEOCheckResult :=
  checkTitleLengthL t.data

/-- SEO check `checkMetaDescription`: first `'\n\n'`-separated paragraph,
stripped of a leading heading line and trimmed, branched on its length.  The
array indexing `split('\n\n')[0]` is the one operation of the whole analyzer
that could throw in JavaScript (on an empty array); it is modelled by
`List.head?`, so the result is an `Option`. -/
def checkMetaDescriptionL (cs : List Char) : Option SEOCheckResult :=
  (jsSplitNN cs).head?.map fun fp0 =>
    let fp := jsTrim (stripLeadHeading fp0)
    if fp.length = 0 then ⟨0, [msgAddIntro]⟩
    else if fp.length < 120 then ⟨1/2, [msgShortIntro]⟩
    else if 160 < fp.length then ⟨7/10, [msgLongIntro]⟩
    else ⟨1, []⟩

/-- String wrapper for `checkMetaDescriptionL`. -/
def checkMetaDescription (t : String) : Option SEOCheckResult :=
  checkMetaDescriptionL t.data

/-- SEO check `checkHeadings`: branch on the `/^#{1,6}\s+.+$/gm` matches; an
H1 match is one starting with the two characters `"# "`, a subheading one
starting with `"## "`.  The 0.7 subheading multiplier compounds with the H1
branch score. -/
def checkHeadingsL (cs : List Char) : SEOCheckResult :=
  let hs := headingMatches cs
  if hs.length = 0 then ⟨0, [msgNoHeadings]⟩ else
  let h1 := (hs.filter fun h => h.take 2 = ['#', ' ']).length
  let hasSub2 := hs.any fun h => h.take 3 = ['#', '#', ' ']
  let s1 : ℚ := if h1 = 0 then 3/10 else if 1 < h1 then 1/2 else 1
  let sug1 : List String := if h1 = 0 then [msgAddH1] else if 1 < h1 then [msgMultH1] else []
  if hasSub2 then ⟨s1, sug1⟩ else ⟨s1 * (7/10), sug1 ++ [msgAddSub]⟩

/-- String wrapper for `checkHeadingsL`. -/
def checkHeadings (t : String) : SEOCheckResult :=
  checkHeadingsL t.data

/-- SEO check `checkLinks`: zero matches of the link pattern give score 0.5;
otherwise, if some matched link contains the two-character substring `"[]"`,
score 0.7; otherwise score 1. -/
def checkLinksL (cs : List Char) : SEOCheckResult :=
  let links := findLinks cs
  if links.length = 0 then ⟨1/2, [msgNoLinks]⟩
  else if links.any (hasSub ['[', ']']) then ⟨7/10, [msgEmptyAnchor]⟩
  else ⟨1, []⟩

/-- String wrapper for `checkLinksL`. -/
def checkLinks (t : String) : SEOCheckResult :=
  checkLinksL t.data

/-- SEO check `checkImageAlt`: if images exist and some matched image contains
the substring `"![]("`, score 0.5; otherwise score 1. -/
def checkImageAltL (cs : List Char) : SEOCheckResult :=
  let images := findImages cs
  if 0 < images.length && images.any (hasSub ['!', '[', ']', '(']) then ⟨1/2, [msgAlt]⟩
  else ⟨1, []⟩

/-- String wrapper for `checkImageAltL`. -/
def checkImageAlt (t : String) : SEOCheckResult :=
  checkImageAltL t.data

/-- SEO check `checkContentLength`: branch on `split(/\s+/).length` (which is
1, not 0, for the empty string). -/
def checkContentLengthL (cs : List Char) : SEOCheckResult :=
  let wc := (splitRuns isWS cs).length
  if wc < 300 then ⟨3/10, [msgShortContent]⟩
  else if wc < 600 then ⟨7/10, [msgMedContent]⟩
  else ⟨1, []⟩

/-- String wrapper for `checkContentLengthL`. -/
def checkContentLength (t : String) : SEOCheckResult :=
  checkContentLengthL t.data

/-- SEO check `checkParagraphLength`: split on `/\n\n+/` and penalise if any
paragraph has more than 150 whitespace-separated tokens. -/
def checkParagraphLengthL (cs : List Char) : SEOCheckResult :=
  let ps := splitParas cs
  if 0 < (ps.filter fun p => 150 < (splitRuns isWS p).length).length then ⟨7/10, [msgLongPara]⟩
  else ⟨1, []⟩

/-- String wrapper for `checkParagraphLengthL`. -/
def checkParagraphLength (t : String) : SEOCheckResult :=
  checkParagraphLengthL t.data

/-- JavaScript `Math.round` on a finite value: half-way cases round toward
positive infinity. -/
def jsRound (q : ℚ) : ℤ :=
  ⌊q + 1/2⌋

/-- Aggregate SEO report: rounded 0–100 score and flattened suggestions. -/
structure SEOReport where
  overallScore : ℤ
  suggestions : List String
deriving DecidableEq

/-- Aggregator `analyzeSEO` (pure core of `src/unnamed/part_000`): run the
eight checks in their fixed object-literal order, average the scores, scale to
0–100 and round; concatenate all suggestions in the same order.  `Option`
because `checkMetaDescription` is. -/
def analyzeSEO (t : String) : Option SEOReport :=
  let cs := t.data
  (checkMetaDescriptionL cs).map fun md =>
    let checks := [calculateKeywordDensityL cs, checkTitleLengthL cs, md,
      checkHeadingsL cs, checkLinksL cs, checkImageAltL cs,
      checkContentLengthL cs, checkParagraphLengthL cs]
    { overallScore := jsRound ((checks.map (·.score)).sum / 8 * 100)
      suggestions := (checks.map (·.suggestions)).flatten }

/-- JavaScript numbers as they arise in the readability formulas: a finite
rational, an infinity, or `NaN`. -/
inductive JSNum where
  | nan : JSNum
  | posInf : JSNum
  | negInf : JSNum
  | fin : ℚ → JSNum
deriving DecidableEq

/-- JavaScript division of two nonnegative counts: division by zero yields
`NaN` (0/0) or `Infinity` (n/0, n positive). -/
def jsDivNat (a b : Nat) : JSNum :=
  if b = 0 then (if a = 0 then .nan else .posInf) else .fin ((a : ℚ) / b)

/-- JavaScript multiplication by a finite constant. -/
def jsMulC (c : ℚ) : JSNum → JSNum
  | .nan => .nan
  | .posInf => if 0 < c then .posInf else if c < 0 then .negInf else .nan
  | .negInf => if 0 < c then .negInf else if c < 0 then .posInf else .nan
  | .fin q => .fin (c * q)

/-- JavaScript addition. -/
def jsAdd : JSNum → JSNum → JSNum
  | .nan, _ => .nan
  | _, .nan => .nan
  | .posInf, .negInf => .nan
  | .negInf, .posInf => .nan
  | .posInf, _ => .posInf
  | _, .posInf => .posInf
  | .negInf, _ => .negInf
  | _, .negInf => .negInf
  | .fin a, .fin b => .fin (a + b)

/-- JavaScript `Math.round` extended to special values (it fixes them). -/
def jsRoundN : JSNum → JSNum
  | .fin q => .fin (jsRound q : ℚ)
  | x => x

/-- JavaScript `Math.min`: `NaN` if either argument is `NaN`. -/
def jsMin : JSNum → JSNum → JSNum
  | .nan, _ => .nan
  | _, .nan => .nan
  | .negInf, _ => .negInf
  | _, .negInf => .negInf
  | .posInf, y => y
  | x, .posInf => x
  | .fin a, .fin b => .fin (min a b)

/-- JavaScript `Math.max`: `NaN` if either argument is `NaN`. -/
def jsMax : JSNum → JSNum → JSNum
  | .nan, _ => .nan
  | _, .nan => .nan
  | .posInf, _ => .posInf
  | _, .posInf => .posInf
  | .negInf, y => y
  | x, .negInf => x
  | .fin a, .fin b => .fin (max a b)

/-- The grade-level expression shared by both `analyzeReadability` variants:
`Math.max(1, Math.min(12, Math.round(0.39*(words/sentences) +
11.8*(syllables/words) - 15.59)))`, with JavaScript division-by-zero
semantics when the sentence or word count is zero. -/
def gradeOf (nw ns syl : Nat) : JSNum :=
  jsMax (.fin 1) (jsMin (.fin 12)
    (jsRoundN (jsAdd (jsAdd (jsMulC (39/100) (jsDivNat nw ns))
      (jsMulC (59/5) (jsDivNat syl nw))) (.fin (-(1559/100))))))

/-- Sentence tokenization shared by the readability analyzers: split on
`/[.!?]+/` and keep fragments with nonempty trim. -/
def sentencesOf (cs : List Char) : List (List Char) :=
  (splitRuns isSentEnd cs).filter fun s => 0 < (jsTrim s).length

/-- Word tokenization for aggregate statistics: split on `/\s+/` and keep
nonempty fragments. -/
def wordsOf (cs : List Char) : List (List Char) :=
  (splitRuns isWS cs).filter fun w => 0 < w.length

/-- Per-sentence statistics of `analyzeReadability` in `src/src/App.tsx`:
`sentence.trim().split(/\s+/)` word count, and mean syllables per word with
syllables summed per word by `countSyllables`. -/
def sentStats (s : List Char) : Nat × ℚ :=
  let words := splitRuns isWS (jsTrim s)
  (words.length, (((words.map countSyllablesL).sum : ℚ)) / words.length)

/-- Very-hard condition of the App.tsx classifier:
`wordCount > 30 || avgSyllablesPerWord > 2.5`. -/
def sentVeryHardB (s : List Char) : Bool :=
  decide (30 < (sentStats s).1 ∨ 5/2 < (sentStats s).2)

/-- Hard condition of the App.tsx classifier:
`wordCount > 20 || avgSyllablesPerWord > 2.0`. -/
def sentHardB (s : List Char) : Bool :=
  decide (20 < (sentStats s).1 ∨ 2 < (sentStats s).2)

/-- The sentence-classification loop of App.tsx `analyzeReadability`: each
sentence is pushed (trimmed) onto the very-hard list, else the hard list, else
dropped; returns `(hard, veryHard)` in document order. -/
def classifySentences : List (List Char) → List (List Char) × List (List Char)
  | [] => ([], [])
  | s :: rest =>
    let p := classifySentences rest
    if sentVeryHardB s then (p.1, jsTrim s :: p.2)
    else if sentHardB s then (jsTrim s :: p.1, p.2)
    else p

/-- Ease score `calculateReadabilityScore` of `src/src/App.tsx`: guard empty
tokenizations with 100, else clamp and round
`100 - 8 * (0.39*avgSentenceLength + 11.8*avgSyllablesPerWord - 15.59)`. -/
def calculateReadabilityScoreL (cs : List Char) : ℤ :=
  let sentences := sentencesOf cs
  let words := wordsOf cs
  if sentences.length = 0 ∨ words.length = 0 then 100
  else
    let syl := (words.map countSyllablesL).sum
    let asl : ℚ := (words.length : ℚ) / sentences.length
    let aspw : ℚ := (syl : ℚ) / words.length
    let grade : ℚ := 39/100 * asl + 59/5 * aspw - 1559/100
    jsRound (max 0 (min 100 (100 - grade * 8)))

/-- String wrapper for `calculateReadabilityScoreL`. -/
def calculateReadabilityScore (t : String) : ℤ :=
  calculateReadabilityScoreL t.data

/-- Readability report: ease score, hard and very-hard sentences in document
order, and the grade level (a `JSNum` because the code computes it by
unguarded division by the sentence count). -/
structure ReadabilityReport where
  score : ℤ
  hardSentences : List (List Char)
  veryHardSentences : List (List Char)
  grade : JSNum
deriving DecidableEq

/-- Readability analyzer of `src/src/App.tsx`. -/
def analyzeReadability (t : String) : ReadabilityReport :=
  let cs := t.data
  let sentences := sentencesOf cs
  let p := classifySentences sentences
  let words := wordsOf cs
  let syl := (words.map countSyllablesL).sum
  { score := calculateReadabilityScoreL cs
    hardSentences := p.1
    veryHardSentences := p.2
    grade := gradeOf words.length sentences.length syl }

/-- Per-sentence statistics of the part_000 classifier: same word split, but
syllables estimated by `countSyllablesV2` applied to the whole sentence. -/
def sentStatsV2 (s : List Char) : Nat × ℚ :=
  let words := splitRuns isWS (jsTrim s)
  (words.length, ((countSyllablesV2L s : ℚ)) / words.length)

/-- Very-hard condition of the part_000 classifier:
`avgSyllablesPerWord > 2.5 || words.length > 30`. -/
def sentVeryHardV2B (s : List Char) : Bool :=
  decide (5/2 < (sentStatsV2 s).2 ∨ 30 < (sentStatsV2 s).1)

/-- Hard condition of the part_000 classifier:
`avgSyllablesPerWord > 2.0 || words.length > 20`. -/
def sentHardV2B (s : List Char) : Bool :=
  decide (2 < (sentStatsV2 s).2 ∨ 20 < (sentStatsV2 s).1)

/-- The sentence-classification loop of part_000 `analyzeReadability`. -/
def classifySentencesV2 : List (List Char) → List (List Char) × List (List Char)
  | [] => ([], [])
  | s :: rest =>
    let p := classifySentencesV2 rest
    if sentVeryHardV2B s then (p.1, jsTrim s :: p.2)
    else if sentHardV2B s then (jsTrim s :: p.1, p.2)
    else p

/-- Ease score `calculateReadabilityScore` of `src/unnamed/part_000`: raw
Flesch formula `206.835 - 1.015*awps - 84.6*aspw` over the unfiltered splits
(both of which always have at least one element, so no division by zero),
rounded then clamped. -/
def calculateReadabilityScoreV2L (cs : List Char) : ℤ :=
  let ns := (splitRuns isSentEnd cs).length
  let nw := (splitRuns isWS cs).length
  let syl := countSyllablesV2L cs
  let awps : ℚ := (nw : ℚ) / ns
  let aspw : ℚ := (syl : ℚ) / nw
  min 100 (max 0 (jsRound (206835/1000 - 1015/1000 * awps - 846/10 * aspw)))

/-- String wrapper for `calculateReadabilityScoreV2L`. -/
def calculateReadabilityScoreV2 (t : String) : ℤ :=
  calculateReadabilityScoreV2L t.data

/-- Readability analyzer of `src/unnamed/part_000`. -/
def analyzeReadabilityV2 (t : String) : ReadabilityReport :=
  let cs := t.data
  let sentences := sentencesOf cs
  let p := classifySentencesV2 sentences
  let words := wordsOf cs
  { score := calculateReadabilityScoreV2L cs
    hardSentences := p.1
    veryHardSentences := p.2
    grade := gradeOf words.length sentences.length (countSyllablesV2L cs) }

/-- First element of the `'\n\n'` split, used to state meta-description
properties (`checkMetaDescriptionL` itself indexes via `head?`). -/
def firstParaOf (cs : List Char) : List Char :=
  match jsSplitNN cs with
  | [] => []
  | fp :: _ => fp

/-- Modelled from the spec: an H1 heading line is a line consisting of a
single hash, a space, and at least one further character. -/
def specH1LineB (l : List Char) : Bool :=
  l.take 2 = ['#', ' '] && 2 < l.length

/-- Modelled from the spec: an H2 heading line is a line consisting of two
hashes, a space, and at least one further character. -/
def specH2LineB (l : List Char) : Bool :=
  l.take 3 = ['#', '#', ' '] && 3 < l.length

theorem consHead_ne_nil (c : Char) (l : List (List Char)) : consHead c l ≠ [] := by
  cases l <;> simp [consHead]

theorem jsSplitNN_ne_nil (cs : List Char) : jsSplitNN cs ≠ [] := by
  match cs with
  | [] => simp [jsSplitNN]
  | '\n' :: '\n' :: rest => simp [jsSplitNN]
  | c :: rest =>
    rw [jsSplitNN.eq_def]
    split
    · simp
    · simp
    · exact consHead_ne_nil _ _

theorem head?_jsSplitNN (cs : List Char) :
    (jsSplitNN cs).head? = some (firstParaOf cs) := by
  cases h : jsSplitNN cs with
  | nil => exact absurd h (jsSplitNN_ne_nil cs)
  | cons a b => simp [firstParaOf, h]

theorem jsRound_bounds {q : ℚ} (h0 : 0 ≤ q) (h1 : q ≤ 100) :
    0 ≤ jsRound q ∧ jsRound q ≤ 100 := by
  constructor
  · exact Int.le_floor.mpr (by push_cast; linarith)
  · have : jsRound q < 101 := Int.floor_lt.mpr (by push_cast; linarith)
    omega

theorem kwDensity_score_bounds (cs : List Char) :
    0 ≤ (calculateKeywordDensityL cs).score ∧ (calculateKeywordDensityL cs).score ≤ 1 := by
  simp only [calculateKeywordDensityL]
  split_ifs <;> norm_num

theorem titleLength_score_bounds (cs : List Char) :
    0 ≤ (checkTitleLengthL cs).score ∧ (checkTitleLengthL cs).score ≤ 1 := by
  simp only [checkTitleLengthL]
  rcases findTitle cs with _ | n
  · norm_num
  · simp only
    split_ifs <;> norm_num

theorem metaDescription_score_bounds {cs : List Char} {r : SEOCheckResult}
    (h : checkMetaDescriptionL cs = some r) : 0 ≤ r.score ∧ r.score ≤ 1 := by
  rw [checkMetaDescriptionL, head?_jsSplitNN, Option.map_some'] at h
  obtain rfl : _ = r := Option.some_injective _ h
  simp only []
  split_ifs <;> norm_num

theorem headings_score_bounds (cs : List Char) :
    0 ≤ (checkHeadingsL cs).score ∧ (checkHeadingsL cs).score ≤ 1 := by
  simp only [checkHeadingsL]
  split_ifs <;> norm_num

theorem links_score_bounds (cs : List Char) :
    0 ≤ (checkLinksL cs).score ∧ (checkLinksL cs).score ≤ 1 := by
  simp only [checkLinksL]
  split_ifs <;> norm_num

theorem imageAlt_score_bounds (cs : List Char) :
    0 ≤ (checkImageAltL cs).score ∧ (checkImageAltL cs).score ≤ 1 := by
  simp only [checkImageAltL]
  split_ifs <;> norm_num

theorem contentLength_score_bounds (cs : List Char) :
    0 ≤ (checkContentLengthL cs).score ∧ (checkContentLengthL cs).score ≤ 1 := by
  simp only [checkContentLengthL]
  split_ifs <;> norm_num

theorem paragraphLength_score_bounds (cs : List Char) :
    0 ≤ (checkParagraphLengthL cs).score ∧ (checkParagraphLengthL cs).score ≤ 1 := by
  simp only [checkParagraphLengthL]
  split_ifs <;> norm_num

theorem analyzeSEO_overall_bounds {t : String} {r : SEOReport}
    (h : analyzeSEO t = some r) : 0 ≤ r.overallScore ∧ r.overallScore ≤ 100 := by
  rw [analyzeSEO] at h
  rw [Option.map_eq_some'] at h
  obtain ⟨md, hmd, rfl⟩ := h
  simp only [List.map_cons, List.map_nil, List.sum_cons, List.sum_nil]
  obtain ⟨a0, a1⟩ := kwDensity_score_bounds t.data
  obtain ⟨b0, b1⟩ := titleLength_score_bounds t.data
  obtain ⟨c0, c1⟩ := metaDescription_score_bounds hmd
  obtain ⟨d0, d1⟩ := headings_score_bounds t.data
  obtain ⟨e0, e1⟩ := links_score_bounds t.data
  obtain ⟨f0, f1⟩ := imageAlt_score_bounds t.data
  obtain ⟨g0, g1⟩ := contentLength_score_bounds t.data
  obtain ⟨i0, i1⟩ := paragraphLength_score_bounds t.data
  exact jsRound_bounds (by linarith) (by linarith)

theorem readability_score_bounds (t : String) :
    0 ≤ (analyzeReadability t).score ∧ (analyzeReadability t).score ≤ 100 := by
  show 0 ≤ calculateReadabilityScoreL t.data ∧ calculateReadabilityScoreL t.data ≤ 100
  rw [calculateReadabilityScoreL]
  split_ifs
  · norm_num
  · exact jsRound_bounds (le_max_left _ _) (max_le (by norm_num) (min_le_left _ _))

theorem jsRound_eq {q : ℚ} {z : ℤ} (h1 : (z : ℚ) ≤ q + 1/2) (h2 : q + 1/2 < z + 1) :
    jsRound q = z := by
  rw [jsRound]
  exact Int.floor_eq_iff.mpr ⟨h1, by linarith⟩

theorem analyzeSEO_empty_eval :
    analyzeSEO "" =
      some ⟨39, [msgNoKw, msgNoTitle, msgAddIntro, msgNoHeadings, msgNoLinks, msgShortContent]⟩ := by
  simp only [analyzeSEO,
    show checkMetaDescriptionL "".data = some ⟨0, [msgAddIntro]⟩ from rfl,
    show calculateKeywordDensityL "".data = ⟨3/10, [msgNoKw]⟩ from rfl,
    show checkTitleLengthL "".data = ⟨0, [msgNoTitle]⟩ from rfl,
    show checkHeadingsL "".data = ⟨0, [msgNoHeadings]⟩ from rfl,
    show checkLinksL "".data = ⟨1/2, [msgNoLinks]⟩ from rfl,
    show checkImageAltL "".data = ⟨1, []⟩ from rfl,
    show checkContentLengthL "".data = ⟨3/10, [msgShortContent]⟩ from rfl,
    show checkParagraphLengthL "".data = ⟨1, []⟩ from rfl,
    Option.map_some', List.map_cons, List.map_nil, List.sum_cons, List.sum_nil,
    List.flatten, List.append_nil, List.nil_append, List.cons_append,
    Option.some.injEq, SEOReport.mk.injEq]
  refine ⟨?_, by simp⟩
  exact jsRound_eq (by norm_num) (by norm_num)

/-- C1: for every input, `analyzeSEO`'s overallScore is an integer in [0,100]
and the readability ease score is an integer in [0,100]; but the grade is NOT
always an integer in [1,12]: on the empty string both readability variants
compute `Math.round(NaN)` (division by a zero sentence count), and the
`Math.max(1, Math.min(12, _))` clamp maps `NaN` to `NaN`. -/
theorem c1_score_ranges_and_grade_nan :
    (∀ (t : String) (r : SEOReport), analyzeSEO t = some r →
      0 ≤ r.overallScore ∧ r.overallScore ≤ 100) ∧
    (∀ t : String, 0 ≤ (analyzeReadability t).score ∧ (analyzeReadability t).score ≤ 100) ∧
    (analyzeReadability "").grade = JSNum.nan ∧
    (analyzeReadabilityV2 "").grade = JSNum.nan :=
  ⟨fun _ _ h => analyzeSEO_overall_bounds h, readability_score_bounds, rfl, rfl⟩

/-- Witness for C1's hypothesis-bearing part, at the empty string: the
aggregate SEO report of `""` evaluates to score 39 with the six
failing-check suggestions, and 39 lies in [0,100]. -/
theorem c1_witness : 0 ≤ (39 : ℤ) ∧ (39 : ℤ) ≤ 100 :=
  c1_score_ranges_and_grade_nan.1 ""
    ⟨39, [msgNoKw, msgNoTitle, msgAddIntro, msgNoHeadings, msgNoLinks, msgShortContent]⟩
    analyzeSEO_empty_eval

/-- C2: on the empty string both readability variants return ease score 100
and empty hard/very-hard lists, but the grade is `NaN`, not 1: the grade
formula divides by the (zero) sentence count without the guard that protects
the ease score. -/
theorem c2_empty_input_eval :
    analyzeReadability "" =
      { score := 100, hardSentences := [], veryHardSentences := [], grade := JSNum.nan } ∧
    analyzeReadabilityV2 "" =
      { score := 100, hardSentences := [], veryHardSentences := [], grade := JSNum.nan } := by
  refine ⟨rfl, ?_⟩
  have h : analyzeReadabilityV2 "" =
      { score := calculateReadabilityScoreV2L "".data, hardSentences := [],
        veryHardSentences := [], grade := JSNum.nan } := rfl
  rw [h]
  have h2 : calculateReadabilityScoreV2L "".data = 100 := by
    have h3 : calculateReadabilityScoreV2L "".data =
        min 100 (max 0 (jsRound (206835/1000 - 1015/1000 * (((1 : ℕ) : ℚ) / ((1 : ℕ) : ℚ))
          - 846/10 * (((0 : ℕ) : ℚ) / ((1 : ℕ) : ℚ))))) := rfl
    rw [h3, show jsRound (206835/1000 - 1015/1000 * (((1 : ℕ) : ℚ) / ((1 : ℕ) : ℚ))
          - 846/10 * (((0 : ℕ) : ℚ) / ((1 : ℕ) : ℚ))) = 206 from
      jsRound_eq (by push_cast; norm_num) (by push_cast; norm_num)]
    norm_num
  rw [h2]

/-- C3: the analyzer is total. In this embedding every operation of the
checks and of the readability analyzers is a total function (JavaScript
division by zero is value-producing `NaN`/`Infinity`, modelled in `JSNum`);
the single spot where the JavaScript could throw - the `[0]` array index on
`split('\n\n')` inside the meta-description check - is modelled with
`Option`, and it always returns `some` because a JavaScript split result is
never empty. -/
theorem c3_total (t : String) :
    (checkMetaDescriptionL t.data).isSome = true ∧ (analyzeSEO t).isSome = true := by
  have h1 : (checkMetaDescriptionL t.data).isSome = true := by
    rw [checkMetaDescriptionL, head?_jsSplitNN, Option.map_some', Option.isSome_some]
  refine ⟨h1, ?_⟩
  rw [analyzeSEO]
  rw [Option.isSome_map']
  exact h1

/-- Witness for C3 at a concrete input. -/
theorem c3_witness :
    (checkMetaDescriptionL "".data).isSome = true ∧ (analyzeSEO "").isSome = true :=
  c3_total ""

/-- C9: both analyzers are deterministic pure functions of their input
string: equal inputs give equal outputs.  In this embedding they are plain
functions with no state, so this is definitional. -/
theorem c9_deterministic (t1 t2 : String) (h : t1 = t2) :
    analyzeSEO t1 = analyzeSEO t2 ∧
    analyzeReadability t1 = analyzeReadability t2 ∧
    analyzeReadabilityV2 t1 = analyzeReadabilityV2 t2 := by
  subst h
  exact ⟨rfl, rfl, rfl⟩

/-- Witness for C9 at a concrete input. -/
theorem c9_witness :
    analyzeSEO "Some text." = analyzeSEO "Some text." ∧
    analyzeReadability "Some text." = analyzeReadability "Some text." ∧
    analyzeReadabilityV2 "Some text." = analyzeReadabilityV2 "Some text." :=
  c9_deterministic "Some text." "Some text." rfl

/-- C4 counterexample: a document whose only bracket construct is a
genuinely empty-anchor link `[](url)` has NO match of the link pattern
(`[^\]]+` requires nonempty anchor text), so the check returns score 0.5 with
the add-links suggestion - not score 0.7 with the empty-anchor suggestion as
the claim states. -/
theorem c4_counterexample :
    findLinks ("see [](https://x) now").data = [] ∧
    checkLinks "see [](https://x) now" = ⟨1/2, [msgNoLinks]⟩ ∧
    checkLinks "see [](https://x) now" ≠ ⟨7/10, [msgEmptyAnchor]⟩ := by
  refine ⟨by decide, rfl, fun h => ?_⟩
  rw [show checkLinks "see [](https://x) now" = ⟨1/2, [msgNoLinks]⟩ from rfl] at h
  exact absurd (congrArg SEOCheckResult.suggestions h) (by decide)

/-- C4 amended: zero link-pattern matches give score 0.5 with the add-links
suggestion; when matches exist and some matched link contains the substring
`"[]"` (possible only via brackets in the url part or a trailing `'['` in the
anchor, never via a literal empty anchor), score 0.7 with the empty-anchor
suggestion; and every input receives at most one suggestion from this
check. -/
theorem c4_links_amended :
    (∀ t : String, findLinks t.data = [] → checkLinks t = ⟨1/2, [msgNoLinks]⟩) ∧
    (∀ t : String, findLinks t.data ≠ [] →
      (findLinks t.data).any (hasSub ['[', ']']) = true →
      checkLinks t = ⟨7/10, [msgEmptyAnchor]⟩) ∧
    (∀ t : String, (checkLinks t).suggestions.length ≤ 1) := by
  refine ⟨fun t h => ?_, fun t h1 h2 => ?_, fun t => ?_⟩
  · rw [checkLinks, checkLinksL, h]
    simp
  · rw [checkLinks, checkLinksL]
    rw [if_neg (by simpa using h1), if_pos h2]
  · rw [checkLinks, checkLinksL]
    split_ifs <;> simp

/-- Witness for C4's amended claim at a concrete input. -/
theorem c4_witness : checkLinks "plain text" = ⟨1/2, [msgNoLinks]⟩ :=
  c4_links_amended.1 "plain text" (by decide)

/-- C6 counterexample: the text `"#\n# A\n# B"` contains exactly two H1
heading lines and no H2 line, yet the check returns score 0.7 with a single
suggestion: the greedy `\s+` of `/^#{1,6}\s+.+$/gm` lets the lone `"#"` line
swallow the following `"# A"` line into one match `"#\n# A"`, which does not
start with `"# "`, so the scanner sees only one H1. -/
theorem c6_counterexample :
    (splitNl ("#\n# A\n# B").data).countP specH1LineB = 2 ∧
    (splitNl ("#\n# A\n# B").data).countP specH2LineB = 0 ∧
    headingMatches ("#\n# A\n# B").data = [('#' :: '\n' :: ("# A").data), ("# B").data] ∧
    checkHeadings "#\n# A\n# B" = ⟨7/10, [msgAddSub]⟩ ∧
    ((7 : ℚ)/10 ≠ 7/20) := by
  refine ⟨by decide, by decide, by decide, ?_, by norm_num⟩
  rw [show checkHeadings "#\n# A\n# B" = ⟨1 * (7/10), [] ++ [msgAddSub]⟩ from rfl]
  simp only [SEOCheckResult.mk.injEq, List.nil_append]
  norm_num

/-- C6 amended: for every text on which the heading scanner finds exactly two
matches starting with `"# "` and no match starting with `"## "`, the check
returns score 0.5 x 0.7 = 0.35 with exactly the two suggestions multiple-H1
followed by add-subheadings. -/
theorem c6_headings_amended (t : String)
    (h1 : ((headingMatches t.data).filter fun h => h.take 2 = ['#', ' ']).length = 2)
    (h2 : ((headingMatches t.data).any fun h => h.take 3 = ['#', '#', ' ']) = false) :
    checkHeadings t = ⟨7/20, [msgMultH1, msgAddSub]⟩ := by
  have hne : (headingMatches t.data).length ≠ 0 := by
    intro h0
    rw [List.length_eq_zero] at h0
    rw [h0] at h1
    simp at h1
  rw [checkHeadings, checkHeadingsL]
  rw [if_neg hne]
  simp only [h1, h2]
  norm_num

/-- Witness for C6's amended claim: two plain H1 lines. -/
theorem c6_witness : checkHeadings "# A\n# B" = ⟨7/20, [msgMultH1, msgAddSub]⟩ :=
  c6_headings_amended "# A\n# B" (by decide) (by decide)

theorem takeWhile_eq_self_of_all {p : Char → Bool} :
    ∀ {l : List Char}, (∀ c ∈ l, p c = true) → l.takeWhile p = l := by
  intro l
  induction l with
  | nil => intro _; rfl
  | cons c rest ih =>
    intro h
    rw [List.takeWhile_cons, if_pos (h c (by simp))]
    rw [ih fun x hx => h x (by simp [hx])]

/-- C5 counterexample: the text `"# Title\n\nBody"` has a first paragraph
consisting only of a heading line, yet the check returns score 0.5 with the
short-intro suggestion, not score 0 with the intro suggestion: the strip
regex `/^#.*\n/` needs a newline after the heading, and the paragraph split
has already consumed it. -/
theorem c5_counterexample :
    firstParaOf ("# Title\n\nBody").data = ("# Title").data ∧
    checkMetaDescription "# Title\n\nBody" = some ⟨1/2, [msgShortIntro]⟩ ∧
    checkMetaDescription "# Title\n\nBody" ≠ some ⟨0, [msgAddIntro]⟩ := by
  refine ⟨by decide, rfl, fun h => ?_⟩
  rw [show checkMetaDescription "# Title\n\nBody" = some ⟨1/2, [msgShortIntro]⟩ from rfl] at h
  exact absurd (congrArg (Option.map SEOCheckResult.suggestions) h) (by decide)

/-- C5 amended: the check takes the first blank-line-separated paragraph,
strips a leading heading line only when a newline follows it inside that
paragraph, trims, and branches exactly as claimed on the result (empty gives
0 with the intro suggestion, short 0.5, long 0.7, else 1).  A first paragraph
that is a heading line with no following newline is NOT stripped (last
conjunct), so such texts score by the heading's own length instead of 0. -/
theorem c5_meta_amended :
    (∀ t : String, jsTrim (stripLeadHeading (firstParaOf t.data)) = [] →
      checkMetaDescription t = some ⟨0, [msgAddIntro]⟩) ∧
    (∀ t : String, jsTrim (stripLeadHeading (firstParaOf t.data)) ≠ [] →
      (jsTrim (stripLeadHeading (firstParaOf t.data))).length < 120 →
      checkMetaDescription t = some ⟨1/2, [msgShortIntro]⟩) ∧
    (∀ t : String, 160 < (jsTrim (stripLeadHeading (firstParaOf t.data))).length →
      checkMetaDescription t = some ⟨7/10, [msgLongIntro]⟩) ∧
    (∀ t : String, 120 ≤ (jsTrim (stripLeadHeading (firstParaOf t.data))).length →
      (jsTrim (stripLeadHeading (firstParaOf t.data))).length ≤ 160 →
      checkMetaDescription t = some ⟨1, []⟩) ∧
    (∀ t : String, (firstParaOf t.data).head? = some '#' →
      (∀ c ∈ firstParaOf t.data, isLineTerm c = false) →
      stripLeadHeading (firstParaOf t.data) = firstParaOf t.data) := by
  have base : ∀ t : String, checkMetaDescription t =
      some (let fp := jsTrim (stripLeadHeading (firstParaOf t.data));
        if fp.length = 0 then (⟨0, [msgAddIntro]⟩ : SEOCheckResult)
        else if fp.length < 120 then ⟨1/2, [msgShortIntro]⟩
        else if 160 < fp.length then ⟨7/10, [msgLongIntro]⟩
        else ⟨1, []⟩) := by
    intro t
    rw [checkMetaDescription, checkMetaDescriptionL, head?_jsSplitNN, Option.map_some']
  refine ⟨fun t h => ?_, fun t h h2 => ?_, fun t h => ?_, fun t h h2 => ?_, fun t h h2 => ?_⟩
  · rw [base t]
    simp [h]
  · rw [base t]
    have h0 : ¬ (jsTrim (stripLeadHeading (firstParaOf t.data))).length = 0 := by
      simpa [List.length_eq_zero] using h
    simp only [if_neg h0, if_pos h2]
  · rw [base t]
    have h0 : ¬ (jsTrim (stripLeadHeading (firstParaOf t.data))).length = 0 := by omega
    have h1 : ¬ (jsTrim (stripLeadHeading (firstParaOf t.data))).length < 120 := by omega
    simp only [if_neg h0, if_neg h1, if_pos h]
  · rw [base t]
    have h0 : ¬ (jsTrim (stripLeadHeading (firstParaOf t.data))).length = 0 := by omega
    have h1 : ¬ (jsTrim (stripLeadHeading (firstParaOf t.data))).length < 120 := by omega
    have h3 : ¬ 160 < (jsTrim (stripLeadHeading (firstParaOf t.data))).length := by omega
    simp only [if_neg h0, if_neg h1, if_neg h3]
  · cases hfp : firstParaOf t.data with
    | nil => simp [hfp] at h
    | cons c rest =>
      rw [hfp] at h
      obtain rfl : c = '#' := by simpa using h
      rw [hfp] at h2
      rw [stripLeadHeading]
      have hall : ∀ x ∈ '#' :: rest, (!isLineTerm x) = true := by
        intro x hx
        simp [h2 x hx]
      rw [takeWhile_eq_self_of_all hall]
      simp [List.drop_length]

/-- Witness for C5's amended claim: a heading line terminated by a newline
and followed only by whitespace inside the first paragraph scores 0. -/
theorem c5_witness : checkMetaDescription "# Title\n \n\nBody" = some ⟨0, [msgAddIntro]⟩ :=
  c5_meta_amended.1 "# Title\n \n\nBody" (by decide)

theorem classifySentences_eq (l : List (List Char)) :
    classifySentences l =
      ((l.filter fun s => !sentVeryHardB s && sentHardB s).map jsTrim,
       (l.filter sentVeryHardB).map jsTrim) := by
  induction l with
  | nil => rfl
  | cons s rest ih =>
    cases hv : sentVeryHardB s <;> cases hh : sentHardB s <;>
      simp [classifySentences, ih, hv, hh, List.filter_cons]

theorem sentVeryHardB_trim_congr {a b : List Char} (h : jsTrim a = jsTrim b) :
    sentVeryHardB a = sentVeryHardB b := by
  rw [sentVeryHardB, sentVeryHardB, sentStats, sentStats, h]

theorem analyzeReadability_buckets (t : String) :
    (analyzeReadability t).veryHardSentences
      = ((sentencesOf t.data).filter sentVeryHardB).map jsTrim ∧
    (analyzeReadability t).hardSentences
      = ((sentencesOf t.data).filter fun s => !sentVeryHardB s && sentHardB s).map jsTrim := by
  constructor
  · show (classifySentences (sentencesOf t.data)).2 = _
    rw [classifySentences_eq]
  · show (classifySentences (sentencesOf t.data)).1 = _
    rw [classifySentences_eq]

theorem buckets_disjoint (t : String) :
    ((analyzeReadability t).hardSentences.filter
      fun s => (analyzeReadability t).veryHardSentences.contains s) = [] := by
  obtain ⟨hvh, hh⟩ := analyzeReadability_buckets t
  rw [hvh, hh]
  rw [List.filter_eq_nil_iff]
  intro a ha
  rw [List.mem_map] at ha
  obtain ⟨s0, hs0, rfl⟩ := ha
  rw [List.mem_filter] at hs0
  obtain ⟨_, hs0c⟩ := hs0
  intro hcontains
  have hmem : jsTrim s0 ∈ (List.filter sentVeryHardB (sentencesOf t.data)).map jsTrim := by
    simpa [List.contains, List.elem_iff] using hcontains
  rw [List.mem_map] at hmem
  obtain ⟨s1, hs1, heq⟩ := hmem
  rw [List.mem_filter] at hs1
  have hc := sentVeryHardB_trim_congr heq.symm
  rw [hs1.2] at hc
  rw [Bool.and_eq_true, Bool.not_eq_true'] at hs0c
  rw [hs0c.1] at hc
  exact Bool.false_ne_true hc

set_option maxRecDepth 4000

/-- C7: in the App.tsx classifier, the very-hard bucket is exactly the
document-ordered trimmed sentences with word count above 30 or mean syllables
per word above 2.5; the hard bucket is exactly those not very-hard with word
count above 20 or mean syllables per word above 2.0 (very-hard is checked
first); no trimmed sentence lies in both buckets; a 35-word sentence of
one-syllable words is very-hard purely by length and a 5-short-word sentence
is in neither bucket. -/
theorem c7_sentence_classification :
    (∀ t : String,
      (analyzeReadability t).veryHardSentences
        = ((sentencesOf t.data).filter sentVeryHardB).map jsTrim ∧
      (analyzeReadability t).hardSentences
        = ((sentencesOf t.data).filter fun s => !sentVeryHardB s && sentHardB s).map jsTrim ∧
      ((analyzeReadability t).hardSentences.filter
        fun s => (analyzeReadability t).veryHardSentences.contains s) = []) ∧
    (analyzeReadability "cat dog fox hen cow cat dog fox hen cow cat dog fox hen cow cat dog fox hen cow cat dog fox hen cow cat dog fox hen cow cat dog fox hen cow.").veryHardSentences
      = [("cat dog fox hen cow cat dog fox hen cow cat dog fox hen cow cat dog fox hen cow cat dog fox hen cow cat dog fox hen cow cat dog fox hen cow").data] ∧
    (analyzeReadability "cat dog fox hen cow cat dog fox hen cow cat dog fox hen cow cat dog fox hen cow cat dog fox hen cow cat dog fox hen cow cat dog fox hen cow.").hardSentences
      = [] ∧
    (analyzeReadability "cat dog fox hen cow.").veryHardSentences = [] ∧
    (analyzeReadability "cat dog fox hen cow.").hardSentences = [] := by
  have hv5 : sentVeryHardB ("cat dog fox hen cow").data = false := by
    rw [sentVeryHardB,
      show sentStats ("cat dog fox hen cow").data = (5, ((5 : ℕ) : ℚ) / ((5 : ℕ) : ℚ)) from rfl]
    norm_num
  have hh5 : sentHardB ("cat dog fox hen cow").data = false := by
    rw [sentHardB,
      show sentStats ("cat dog fox hen cow").data = (5, ((5 : ℕ) : ℚ) / ((5 : ℕ) : ℚ)) from rfl]
    norm_num
  refine ⟨fun t => ⟨(analyzeReadability_buckets t).1, (analyzeReadability_buckets t).2,
    buckets_disjoint t⟩, by decide, by decide, ?_, ?_⟩
  · rw [(analyzeReadability_buckets "cat dog fox hen cow.").1,
      show sentencesOf ("cat dog fox hen cow.").data = [("cat dog fox hen cow").data] from by decide]
    simp [List.filter_cons, hv5]
  · rw [(analyzeReadability_buckets "cat dog fox hen cow.").2,
      show sentencesOf ("cat dog fox hen cow.").data = [("cat dog fox hen cow").data] from by decide]
    simp [List.filter_cons, hv5, hh5]

theorem collapseVAux_of_no_vowel {l : List Char} (h : ∀ c ∈ l, isVowel5 c = false) :
    ∀ b, collapseVAux l b = l := by
  induction l with
  | nil => intro b; rfl
  | cons c rest ih =>
    intro b
    rw [collapseVAux]
    rw [if_neg (by simp [h c (by simp)])]
    rw [ih fun x hx => h x (by simp [hx])]

theorem countRunsAux_of_none {p : Char → Bool} {l : List Char} (h : ∀ c ∈ l, p c = false) :
    ∀ b, countRunsAux p l b = 0 := by
  induction l with
  | nil => intro b; rfl
  | cons c rest ih =>
    intro b
    rw [countRunsAux]
    rw [ih fun x hx => h x (by simp [hx])]
    simp [h c (by simp)]

theorem no_vowel_filtered {cs : List Char} (h : ∀ c ∈ cs, isVowelY c.toLower = false) :
    ∀ c ∈ (cs.map Char.toLower).filter (fun c => 'a' ≤ c && c ≤ 'z'), isVowelY c = false := by
  intro c hc
  rw [List.mem_filter] at hc
  obtain ⟨hc1, _⟩ := hc
  rw [List.mem_map] at hc1
  obtain ⟨c0, hc0, rfl⟩ := hc1
  exact h c0 hc0

theorem countSyllablesL_eq_zero {cs : List Char} (h : ∀ c ∈ cs, isVowelY c.toLower = false) :
    countSyllablesL cs = 0 := by
  have hw := no_vowel_filtered h
  have h5 : ∀ c ∈ (cs.map Char.toLower).filter (fun c => 'a' ≤ c && c ≤ 'z'),
      isVowel5 c = false := by
    intro c hc
    have := hw c hc
    rw [isVowelY, Bool.or_eq_false_iff] at this
    exact this.1
  have hlast : ¬ ((cs.map Char.toLower).filter (fun c => 'a' ≤ c && c ≤ 'z')).getLast?
      = some 'e' := by
    intro hl
    have hmem : 'e' ∈ (cs.map Char.toLower).filter (fun c => 'a' ≤ c && c ≤ 'z') := by
      have h1 : 'e' ∈ ((cs.map Char.toLower).filter (fun c => 'a' ≤ c && c ≤ 'z')).getLast? := by
        rw [Option.mem_def]
        exact hl
      obtain ⟨hne, h2⟩ := List.mem_getLast?_eq_getLast h1
      rw [h2]
      exact List.getLast_mem hne
    have := hw 'e' hmem
    simp [isVowelY, isVowel5] at this
  rw [countSyllablesL]
  rw [if_neg hlast]
  rw [collapseV, collapseVAux_of_no_vowel h5]
  rw [List.length_eq_zero, List.filter_eq_nil_iff]
  intro a ha
  simp [hw a ha]

theorem countSyllablesV2L_eq_zero {cs : List Char} (h : ∀ c ∈ cs, isVowelY c.toLower = false) :
    countSyllablesV2L cs = 0 := by
  rw [countSyllablesV2L, countRuns]
  exact countRunsAux_of_none (no_vowel_filtered h) false

/-- C8: both syllable estimators return a nonnegative integer for every
string, and return 0 on the empty string and on any string none of whose
characters lower-cases to a vowel of `{a,e,i,o,u,y}`. -/
theorem c8_syllable_estimator :
    (∀ s : String, 0 ≤ (countSyllables s : ℤ) ∧ 0 ≤ (countSyllablesV2 s : ℤ)) ∧
    countSyllables "" = 0 ∧ countSyllablesV2 "" = 0 ∧
    (∀ s : String, (∀ c ∈ s.data, isVowelY c.toLower = false) →
      countSyllables s = 0 ∧ countSyllablesV2 s = 0) :=
  ⟨fun _ => ⟨Int.natCast_nonneg _, Int.natCast_nonneg _⟩, rfl, rfl,
   fun _ h => ⟨countSyllablesL_eq_zero h, countSyllablesV2L_eq_zero h⟩⟩

/-- Witness for C8's no-vowel clause at a concrete consonant string. -/
theorem c8_witness : countSyllables "Bcdfg" = 0 ∧ countSyllablesV2 "Bcdfg" = 0 :=
  c8_syllable_estimator.2.2.2 "Bcdfg" (by decide)

theorem takeWhile_append_of_all {p : Char → Bool} {l : List Char} (r : List Char)
    (h : ∀ a ∈ l, p a = true) : (l ++ r).takeWhile p = l ++ r.takeWhile p := by
  induction l with
  | nil => simp
  | cons c cl ih =>
    rw [List.cons_append, List.takeWhile_cons, if_pos (h c (by simp)), List.cons_append]
    rw [ih fun x hx => h x (by simp [hx])]

theorem findLinksAux_nil_of_le : ∀ {l : List Char} {n : Nat}, l.length ≤ n → findLinksAux l n = []
  | [], n, _ => by cases n <;> rfl
  | c :: rest, n + 1, h => by
    rw [show findLinksAux (c :: rest) (n + 1) = findLinksAux rest n from rfl]
    exact findLinksAux_nil_of_le (by simpa using h)
  | c :: rest, 0, h => by simp at h

theorem findLinksAux_skip : ∀ (a b : List Char), findLinksAux (a ++ b) a.length = findLinksAux b 0
  | [], b => rfl
  | c :: a1, b => by
    rw [show (c :: a1).length = a1.length + 1 from rfl, List.cons_append,
      show findLinksAux (c :: (a1 ++ b)) (a1.length + 1) = findLinksAux (a1 ++ b) a1.length
        from rfl]
    exact findLinksAux_skip a1 b

theorem findLinksAux_drop_no_bracket {a : List Char} (b : List Char)
    (h : ∀ c ∈ a, c ≠ '[') : findLinksAux (a ++ b) 0 = findLinksAux b 0 := by
  induction a with
  | nil => simp
  | cons c a1 ih =>
    rw [List.cons_append]
    rw [show findLinksAux (c :: (a1 ++ b)) 0 =
      (if c = '[' then
        match tryLink (a1 ++ b) with
        | some (m, k) => ('[' :: m) :: findLinksAux (a1 ++ b) k
        | none => findLinksAux (a1 ++ b) 0
      else findLinksAux (a1 ++ b) 0) from rfl]
    rw [if_neg (h c (by simp))]
    exact ih fun x hx => h x (by simp [hx])

theorem hasSub_drop_no_bracket {l : List Char} (r : List Char)
    (h : ∀ c ∈ l, c ≠ '[') : hasSub ['[', ']'] (l ++ r) = hasSub ['[', ']'] r := by
  induction l with
  | nil => simp
  | cons c l1 ih =>
    rw [List.cons_append, hasSub]
    have hc : (('[' == c) = false) := by
      rw [beq_eq_false_iff_ne]
      exact fun e => h c (by simp) e.symm
    rw [show (['[', ']'].isPrefixOf (c :: (l1 ++ r))) = (('[' == c) && [']'].isPrefixOf (l1 ++ r))
      from rfl]
    rw [hc, Bool.false_and, Bool.false_or]
    exact ih fun x hx => h x (by simp [hx])

theorem findLinksAux_cons_ne {c : Char} (rest : List Char) (h : c ≠ '[') :
    findLinksAux (c :: rest) 0 = findLinksAux rest 0 := by
  rw [show findLinksAux (c :: rest) 0 =
    (if c = '[' then
      match tryLink rest with
      | some (m, k) => ('[' :: m) :: findLinksAux rest k
      | none => findLinksAux rest 0
    else findLinksAux rest 0) from rfl]
  rw [if_neg h]

theorem findLinksAux_cons_some {rest M : List Char} {K : Nat}
    (h : tryLink rest = some (M, K)) :
    findLinksAux ('[' :: rest) 0 = ('[' :: M) :: findLinksAux rest K := by
  rw [show findLinksAux ('[' :: rest) 0 =
    (if '[' = '[' then
      match tryLink rest with
      | some (m, k) => ('[' :: m) :: findLinksAux rest k
      | none => findLinksAux rest 0
    else findLinksAux rest 0) from rfl]
  rw [if_pos rfl, h]

theorem tryLink_image {alt url : List Char} (suf : List Char)
    (halt : alt ≠ []) (haltc : ∀ c ∈ alt, c ≠ ']')
    (hurl : url ≠ []) (hurlc : ∀ c ∈ url, c ≠ ')') :
    tryLink (alt ++ (']' :: '(' :: (url ++ (')' :: suf))))
      = some (alt ++ (']' :: '(' :: (url ++ [')'])), alt.length + 2 + url.length + 1) := by
  have h1 : (alt ++ (']' :: '(' :: (url ++ (')' :: suf)))).takeWhile (· ≠ ']') = alt := by
    rw [takeWhile_append_of_all _ (fun a ha => by simp [haltc a ha])]
    rw [List.takeWhile_cons_of_neg (by simp), List.append_nil]
  have h2 : (alt ++ (']' :: '(' :: (url ++ (')' :: suf)))).drop alt.length
      = ']' :: '(' :: (url ++ (')' :: suf)) := List.drop_left _ _
  have h3 : (url ++ (')' :: suf)).takeWhile (· ≠ ')') = url := by
    rw [takeWhile_append_of_all _ (fun a ha => by simp [hurlc a ha])]
    rw [List.takeWhile_cons_of_neg (by simp), List.append_nil]
  have h4 : (url ++ (')' :: suf)).drop url.length = ')' :: suf := List.drop_left _ _
  simp only [tryLink, h1, h2, h3, h4, List.length_eq_zero, halt, hurl, if_false]

theorem hasSub_image_match_false {alt url : List Char}
    (halt : alt ≠ []) (haltc : ∀ c ∈ alt, c ≠ ']' ∧ c ≠ '[')
    (hurlc : ∀ c ∈ url, c ≠ ')' ∧ c ≠ '[') :
    hasSub ['[', ']'] ('[' :: (alt ++ (']' :: '(' :: (url ++ [')'])))) = false := by
  obtain ⟨a, alt1, rfl⟩ : ∃ a alt1, alt = a :: alt1 := by
    cases alt with
    | nil => exact absurd rfl halt
    | cons a b => exact ⟨a, b, rfl⟩
  rw [hasSub]
  have hpre : (['[', ']'].isPrefixOf
      ('[' :: ((a :: alt1) ++ (']' :: '(' :: (url ++ [')']))))) = false := by
    rw [show (['[', ']'].isPrefixOf ('[' :: ((a :: alt1) ++ (']' :: '(' :: (url ++ [')'])))))
        = (('[' == '[') && ([']'].isPrefixOf ((a :: alt1) ++ (']' :: '(' :: (url ++ [')'])))))
      from rfl]
    rw [List.cons_append]
    rw [show ([']'].isPrefixOf (a :: (alt1 ++ (']' :: '(' :: (url ++ [')'])))))
        = ((']' == a) && ([].isPrefixOf (alt1 ++ (']' :: '(' :: (url ++ [')']))))) from rfl]
    have hne : ((']' == a) = false) := by
      rw [beq_eq_false_iff_ne]
      exact fun e => (haltc a (by simp)).1 e.symm
    rw [hne]
    simp
  rw [hpre, Bool.false_or]
  rw [hasSub_drop_no_bracket _ fun c hc => (haltc c hc).2]
  rw [show (']' :: '(' :: (url ++ [')'])) = [']'] ++ ('(' :: (url ++ [')'])) from rfl]
  rw [hasSub_drop_no_bracket _ (by decide)]
  rw [show ('(' :: (url ++ [')'])) = ['('] ++ (url ++ [')']) from rfl]
  rw [hasSub_drop_no_bracket _ (by decide)]
  rw [hasSub_drop_no_bracket _ fun c hc => (hurlc c hc).2]
  decide

theorem findLinksAux_no_bracket {l : List Char} (h : ∀ c ∈ l, c ≠ '[') :
    findLinksAux l 0 = [] := by
  have h2 := findLinksAux_drop_no_bracket (a := l) [] h
  rw [List.append_nil] at h2
  rw [h2]
  rfl

/-- A document whose bracket-paren constructs are exactly a list of markdown
images: each list entry `(pre, alt, url)` contributes its leading text `pre`
followed by the image `![alt](url)`, and `suf` is the trailing text. -/
def imageDoc : List (List Char × List Char × List Char) → List Char → List Char
  | [], suf => suf
  | (pre, alt, url) :: rest, suf =>
    pre ++ ('!' :: '[' :: (alt ++ (']' :: '(' :: (url ++ (')' :: imageDoc rest suf)))))

/-- C10: for every document whose only bracket-paren constructs are markdown
images `![alt](url)` with nonempty alt text (no brackets inside alt or url,
no `'['` in the surrounding text), the link pattern matches exactly the
`[alt](url)` portion of each image, in document order; consequently, whenever
at least one image is present the links check returns score 1 with no
suggestion, even though the document contains no actual link. -/
theorem c10_images_satisfy_link_check
    (imgs : List (List Char × List Char × List Char)) (suf : List Char)
    (himgs : ∀ p ∈ imgs, (∀ c ∈ p.1, c ≠ '[') ∧
      p.2.1 ≠ [] ∧ (∀ c ∈ p.2.1, c ≠ ']' ∧ c ≠ '[') ∧
      p.2.2 ≠ [] ∧ (∀ c ∈ p.2.2, c ≠ ')' ∧ c ≠ '['))
    (hsuf : ∀ c ∈ suf, c ≠ '[') :
    findLinks (imageDoc imgs suf)
      = imgs.map (fun p => '[' :: (p.2.1 ++ (']' :: '(' :: (p.2.2 ++ [')'])))) ∧
    (imgs ≠ [] → checkLinksL (imageDoc imgs suf) = ⟨1, []⟩) := by
  have main : ∀ l : List (List Char × List Char × List Char),
      (∀ p ∈ l, (∀ c ∈ p.1, c ≠ '[') ∧
        p.2.1 ≠ [] ∧ (∀ c ∈ p.2.1, c ≠ ']' ∧ c ≠ '[') ∧
        p.2.2 ≠ [] ∧ (∀ c ∈ p.2.2, c ≠ ')' ∧ c ≠ '[')) →
      findLinks (imageDoc l suf)
        = l.map (fun p => '[' :: (p.2.1 ++ (']' :: '(' :: (p.2.2 ++ [')'])))) := by
    intro l
    induction l with
    | nil =>
      intro _
      rw [show imageDoc [] suf = suf from rfl, List.map_nil, findLinks]
      exact findLinksAux_no_bracket hsuf
    | cons p rest ih =>
      intro hl
      obtain ⟨pre, alt, url⟩ := p
      obtain ⟨hpre, halt, haltc, hurl, hurlc⟩ := hl (pre, alt, url) (by simp)
      have htry := tryLink_image (imageDoc rest suf) halt
        (fun c hc => (haltc c hc).1) hurl (fun c hc => (hurlc c hc).1)
      rw [show imageDoc ((pre, alt, url) :: rest) suf
          = pre ++ ('!' :: '[' :: (alt ++ (']' :: '(' :: (url ++ (')' :: imageDoc rest suf)))))
        from rfl]
      rw [findLinks, findLinksAux_drop_no_bracket _ hpre]
      rw [findLinksAux_cons_ne _ (by decide)]
      rw [findLinksAux_cons_some htry]
      rw [show alt ++ (']' :: '(' :: (url ++ (')' :: imageDoc rest suf)))
          = (alt ++ (']' :: '(' :: (url ++ [')']))) ++ imageDoc rest suf from by simp]
      rw [show alt.length + 2 + url.length + 1
          = (alt ++ (']' :: '(' :: (url ++ [')']))).length from by simp; omega]
      rw [findLinksAux_skip]
      rw [show findLinksAux (imageDoc rest suf) 0 = findLinks (imageDoc rest suf) from rfl]
      rw [ih fun q hq => hl q (by simp [hq])]
      rw [List.map_cons]
  refine ⟨main imgs himgs, fun hne => ?_⟩
  have hany : (imgs.map (fun p => '[' :: (p.2.1 ++ (']' :: '(' :: (p.2.2 ++ [')']))))).any
      (hasSub ['[', ']']) = false := by
    rw [List.any_eq_false]
    intro m hm
    rw [List.mem_map] at hm
    obtain ⟨p, hp, rfl⟩ := hm
    obtain ⟨_, halt, haltc, _, hurlc⟩ := himgs p hp
    simp [hasSub_image_match_false halt haltc hurlc]
  rw [checkLinksL]
  simp only [main imgs himgs]
  rw [if_neg (by simp [List.length_eq_zero, hne])]
  rw [if_neg (by simp [hany])]

/-- Witness for C10 at a concrete two-image document
`"![photo](a.png) and ![logo](b.png) end"`. -/
theorem c10_witness :
    findLinks (imageDoc [([], "photo".data, "a.png".data),
        ((" and ").data, "logo".data, "b.png".data)] (" end").data)
      = ['[' :: ("photo".data ++ (']' :: '(' :: ("a.png".data ++ [')']))),
         '[' :: ("logo".data ++ (']' :: '(' :: ("b.png".data ++ [')'])))] ∧
    checkLinksL (imageDoc [([], "photo".data, "a.png".data),
        ((" and ").data, "logo".data, "b.png".data)] (" end").data) = ⟨1, []⟩ := by
  have h := c10_images_satisfy_link_check
    [([], "photo".data, "a.png".data), ((" and ").data, "logo".data, "b.png".data)]
    (" end").data (by decide) (by decide)
  exact ⟨h.1, h.2 (by decide)⟩
